import Mathlib

/-!
Shallow embedding of the "TRanslate" browser translation app:
the Gemini service module (`languages`, `translateText`, `speakText`,
`playPcmAudio`) and the interactive session controller in `App.tsx`
(`handleTranslate`, the debounced dispatch effect, `swapLanguages`,
`handleSpeak`).

Remote network calls are modelled by an explicit outcome parameter
(transport failure / parsed response shape), so every client function is a
total Lean function: totality is the embedding of "never throws".
JavaScript truthiness on strings (`s ? : `, `s || d`) is embedded as an
emptiness test.
-/

namespace Translate

/-- Result record returned by the translation client
(`TranslationResult` in the service module). -/
structure TranslationResult where
  translatedText : String
  detectedLanguageCode : String
deriving Repr, DecidableEq

/-- Entry of the static language catalog. -/
structure Language where
  code : String
  name : String
  flag : String
deriving Repr, DecidableEq

/-- The static language catalog (`languages` in the service module). -/
def languages : List Language :=
  [ ⟨"en", "İngilizce", "🇬🇧"⟩,
    ⟨"tr", "Türkçe", "🇹🇷"⟩,
    ⟨"de", "Almanca", "🇩🇪"⟩,
    ⟨"fr", "Fransızca", "🇫🇷"⟩,
    ⟨"ar", "Arapça", "🇸🇦"⟩,
    ⟨"it", "İtalyanca", "🇮🇹"⟩,
    ⟨"ru", "Rusça", "🇷🇺"⟩ ]

/-- The JavaScript guard `!text.trim()`: true exactly when every character
of the text is whitespace (so the trimmed text is empty). Embedded as a
direct character test because the built-in `String.trim` is defined by
well-founded recursion on byte positions and does not kernel-reduce. -/
def isBlank (text : String) : Bool :=
  text.data.all Char.isWhitespace

/-- JavaScript `a || b` on strings: the default is used when the left side
is absent (`undefined`) or the empty string (falsy). -/
def jsOr (a : Option String) (b : String) : String :=
  match a with
  | none => b
  | some s => if s = "" then b else s

/-- Outcome of parsing `JSON.parse(response.text || "\x7b\x7d")` in
`translateText`: either the parse throws, or it yields an object whose two
string fields may each be absent. -/
inductive ParsedResponse where
  | parseError
  | fields (translatedText : Option String) (detectedLanguageCode : Option String)
deriving Repr, DecidableEq

/-- Outcome of the remote `generateContent` call in `translateText`:
transport failure (the promise rejects), or a response whose body parses
as `ParsedResponse`. -/
inductive RemoteTextOutcome where
  | failure
  | response (parsed : ParsedResponse)
deriving Repr, DecidableEq

/-- What a call to the translation client produced: the returned record,
and whether a network call was made. -/
structure TranslateCall where
  result : TranslationResult
  networkCalled : Bool
deriving Repr, DecidableEq

/-- Embedding of `translateText(text, sourceLang, targetLang)`.

The remote call and JSON parse are represented by the `remote` parameter;
the function is total, so no exception can propagate to the caller.
The `catch` branch of the source returns the fixed error string
`"Çeviri hatası oluştu."`; missing response fields fall back through
JavaScript `||`, embedded as `jsOr`. -/
def translateText (text sourceLang targetLang : String)
    (remote : RemoteTextOutcome) : TranslateCall :=
  if isBlank text then
    { result := { translatedText := "", detectedLanguageCode := sourceLang },
      networkCalled := false }
  else
    match remote with
    | .failure =>
        { result := { translatedText := "Çeviri hatası oluştu.",
                      detectedLanguageCode := sourceLang },
          networkCalled := true }
    | .response .parseError =>
        { result := { translatedText := "Çeviri hatası oluştu.",
                      detectedLanguageCode := sourceLang },
          networkCalled := true }
    | .response (.fields t? d?) =>
        { result := { translatedText := jsOr t? "",
                      detectedLanguageCode := jsOr d? sourceLang },
          networkCalled := true }

/-- The `inlineData` object of a response part; its `data` field (the
base64 audio payload) may be absent. -/
structure InlineData where
  data : Option String
deriving Repr, DecidableEq

/-- A response part; `inlineData` may be absent. -/
structure ResponsePart where
  inlineData : Option InlineData
deriving Repr, DecidableEq

/-- Outcome of the remote TTS `generateContent` call in `speakText`:
transport failure, or a response in which
`candidates?.[0]?.content?.parts` is absent or a list of parts. -/
inductive RemoteSpeechOutcome where
  | failure
  | response (parts : Option (List ResponsePart))
deriving Repr, DecidableEq

/-- What a call to the speech client produced: the boolean it returned,
whether a network call was made, and the base64 payload that was decoded
and played to completion, if any. -/
structure SpeakCall where
  result : Bool
  networkCalled : Bool
  played : Option String
deriving Repr, DecidableEq

/-- Embedding of `speakText(text, langCode)`.

`parts?.find(p => p.inlineData)` takes the first part with a present
`inlineData`; playback (`playPcmAudio`) is awaited before `true` is
returned, so a `true` result records a played payload. All failure paths
are caught and become `false`: the function is total. -/
def speakText (text langCode : String) (remote : RemoteSpeechOutcome) : SpeakCall :=
  if isBlank text then
    { result := false, networkCalled := false, played := none }
  else
    match remote with
    | .failure => { result := false, networkCalled := true, played := none }
    | .response parts? =>
        match (parts?.getD []).find? (fun p => p.inlineData.isSome) with
        | none => { result := false, networkCalled := true, played := none }
        | some part =>
            match part.inlineData with
            | none => { result := false, networkCalled := true, played := none }
            | some inline =>
                match inline.data with
                | none => { result := false, networkCalled := true, played := none }
                | some base64Audio =>
                    { result := true, networkCalled := true, played := some base64Audio }

/-- Decode one little-endian byte pair into a signed 16-bit sample, as
`new Int16Array(buffer)` does on a little-endian platform. -/
def bytesToInt16 (lo hi : Fin 256) : Int :=
  let u : Nat := lo.val + 256 * hi.val
  if u < 32768 then (u : Int) else (u : Int) - 65536

/-- The sample loop of `playPcmAudio`: each 16-bit signed sample is
divided by 32768.0. The division is exact in binary floating point
(a 16-bit integer over a power of two), so the value is embedded as the
exact rational. -/
def pcmSampleToFloat (s : Int) : ℚ :=
  (s : ℚ) / 32768

/-- The byte buffer viewed as 16-bit little-endian signed samples
(`new Int16Array(buffer)`); complete pairs only. -/
def pcmBytesToSamples : List (Fin 256) → List Int
  | lo :: hi :: rest => bytesToInt16 lo hi :: pcmBytesToSamples rest
  | _ => []

/-- The float samples handed by `playPcmAudio` to the audio buffer. -/
def pcmBytesToFloats (bytes : List (Fin 256)) : List ℚ :=
  (pcmBytesToSamples bytes).map pcmSampleToFloat

/-- Modelled from the spec: the 16-bit PCM *encoder* of the round-trip
property ("encoding a known float sample sequence to 16-bit PCM") is not
part of the repository; the standard encoding rounds `f * 32768` to the
nearest integer and clamps to the signed 16-bit range. -/
def encodePcm16 (f : ℚ) : Int :=
  max (-32768) (min 32767 ⌊f * 32768 + 1 / 2⌋)

/-! ### The interactive session controller (`App.tsx`) -/

/-- The React state of `App`: the six `useState` fields relevant to
translation and speech. -/
structure AppState where
  sourceText : String
  targetText : String
  sourceLang : String
  targetLang : String
  isLoading : Bool
  isSpeaking : Bool
deriving Repr, DecidableEq

/-- The initial controller state (`useState` initialisers). -/
def initialAppState : AppState :=
  { sourceText := "", targetText := "", sourceLang := "tr", targetLang := "en",
    isLoading := false, isSpeaking := false }

/-- The part of `handleTranslate` that runs before `await translateText`:
on blank text it clears the target and returns without dispatching; else
it sets the loading flag and dispatches. The boolean records whether a
translation request was dispatched. -/
def handleTranslateStart (st : AppState) (text : String) : AppState × Bool :=
  if isBlank text then ({ st with targetText := "" }, false)
  else ({ st with isLoading := true }, true)

/-- The part of `handleTranslate` that runs after `await translateText`
resolves: the auto-detect update (guarded by JS truthiness of
`detectedLanguageCode`, inequality with the captured `sLang`, and a
catalog lookup), then the target-text write and loading-flag clear.
`sLang` is the source language captured at dispatch time. -/
def completeTranslate (st : AppState) (sLang : String)
    (result : TranslationResult) : AppState :=
  let st1 :=
    if result.detectedLanguageCode ≠ "" ∧ result.detectedLanguageCode ≠ sLang then
      match languages.find? (fun l => l.code == result.detectedLanguageCode) with
      | some foundLang => { st with sourceLang := foundLang.code }
      | none => st
    else st
  { st1 with targetText := result.translatedText, isLoading := false }

/-- A translation scheduled by the debounce effect but not yet fired:
the timer id together with the text and language pair captured for
`handleTranslate`. -/
structure ScheduledTranslate where
  id : Nat
  text : String
  sLang : String
  tLang : String
deriving Repr, DecidableEq

/-- The controller together with its timer environment: `timerRef` is the
`debounceTimer` ref (never reset to `null` by the effect, so it may hold
the id of an already-cleared timer), `live` the set of timers that have
been scheduled via `setTimeout` and neither fired nor been cleared, and
`nextId` a fresh timer id. -/
structure ControllerState where
  app : AppState
  timerRef : Option Nat
  live : List ScheduledTranslate
  nextId : Nat
deriving Repr, DecidableEq

/-- The initial controller state: no timer scheduled. -/
def initialController : ControllerState :=
  { app := initialAppState, timerRef := none, live := [], nextId := 0 }

/-- The `clearTimeout(debounceTimer.current)` call: the timer whose id the
ref holds is removed from the live set (a no-op when it already fired or
was already cleared). -/
def clearScheduled (timerRef : Option Nat) (live : List ScheduledTranslate) :
    List ScheduledTranslate :=
  match timerRef with
  | some id => live.filter (fun e => e.id ≠ id)
  | none => live

/-- The debounced-dispatch `useEffect` body: clear the timer held in
`debounceTimer.current` (a no-op if it already fired or was cleared),
then either schedule `handleTranslate` with the current text and language
pair after 300 ms, or — on empty text — clear the target text. -/
def debounceEffect (s : ControllerState) : ControllerState :=
  let live := clearScheduled s.timerRef s.live
  if s.app.sourceText ≠ "" then
    { s with
      live := live ++ [⟨s.nextId, s.app.sourceText, s.app.sourceLang, s.app.targetLang⟩],
      timerRef := some s.nextId,
      nextId := s.nextId + 1 }
  else
    { s with live := live, app := { s.app with targetText := "" } }

/-- A keystroke in the source textarea: `setSourceText` with the new
value, followed by the re-run of the debounce effect. -/
def keystroke (s : ControllerState) (t : String) : ControllerState :=
  debounceEffect { s with app := { s.app with sourceText := t } }

/-- A burst of keystrokes, each arriving inside the 300 ms window of the
previous one (so no timer fires in between). -/
def processKeystrokes (s : ControllerState) : List String → ControllerState
  | [] => s
  | t :: ts => processKeystrokes (keystroke s t) ts

/-- The dispatches that will occur when the debounce window closes: one
`handleTranslate(text, sLang, tLang)` call per still-live timer. -/
def pendingDispatches (s : ControllerState) : List (String × String × String) :=
  s.live.map (fun e => (e.text, e.sLang, e.tLang))

/-- Debounce invariant: at most one live timer, and every live timer is
the one `debounceTimer.current` points at (so the next effect run cancels
it). -/
def DebounceInv (s : ControllerState) : Prop :=
  s.live.length ≤ 1 ∧ ∀ e ∈ s.live, s.timerRef = some e.id

instance (s : ControllerState) : Decidable (DebounceInv s) := by
  unfold DebounceInv; infer_instance

/-- Embedding of `swapLanguages`: the four state setters read the values
captured at render time, so the two language selections and the two text
panes are exchanged simultaneously; the body contains no translation call
and does not touch the timer environment. -/
def swapLanguages (s : ControllerState) : ControllerState :=
  { s with app :=
      { s.app with
        sourceLang := s.app.targetLang,
        targetLang := s.app.sourceLang,
        sourceText := s.app.targetText,
        targetText := s.app.sourceText } }

/-- The speech-related controller state: the `isSpeaking` flag, the number
of `speakText` operations currently in flight, and a counter of accepted
speak invocations (playback starts). -/
structure SpeakState where
  isSpeaking : Bool
  inFlightSpeech : Nat
  playCount : Nat
deriving Repr, DecidableEq

/-- Initial speech state. -/
def initialSpeak : SpeakState :=
  { isSpeaking := false, inFlightSpeech := 0, playCount := 0 }

/-- The synchronous prefix of `handleSpeak(text, lang)`: blank text or an
operation already in flight returns immediately with no state change;
otherwise the speaking flag is set and a `speakText` call starts. -/
def handleSpeakReq (s : SpeakState) (text : String) : SpeakState :=
  if isBlank text || s.isSpeaking then s
  else { s with isSpeaking := true,
                inFlightSpeech := s.inFlightSpeech + 1,
                playCount := s.playCount + 1 }

/-- Completion of an in-flight `speakText` call (success, failure or
thrown error all clear the flag). A completion event only exists for an
in-flight operation. -/
def handleSpeakDone (s : SpeakState) : SpeakState :=
  if s.inFlightSpeech = 0 then s
  else { s with isSpeaking := false, inFlightSpeech := s.inFlightSpeech - 1 }

/-- Events of the speech subsystem. -/
inductive SpeakEvent where
  | req (text : String)
  | done
deriving Repr, DecidableEq

/-- One speech event step. -/
def speakStep (s : SpeakState) : SpeakEvent → SpeakState
  | .req text => handleSpeakReq s text
  | .done => handleSpeakDone s

/-- A run of speech events. -/
def speakRun (s : SpeakState) : List SpeakEvent → SpeakState
  | [] => s
  | e :: es => speakRun (speakStep s e) es

/-- Speech exclusivity invariant: at most one speech operation in flight,
and the speaking flag tracks it exactly. -/
def SpeakInv (s : SpeakState) : Prop :=
  s.inFlightSpeech ≤ 1 ∧ (s.isSpeaking = true ↔ s.inFlightSpeech = 1)

instance (s : SpeakState) : Decidable (SpeakInv s) := by
  unfold SpeakInv; infer_instance

/-! ### Theorems -/

/-- Claim C8: for every empty or whitespace-only text and every language
pair and remote outcome, `translateText` returns the empty translation
with `detectedLanguageCode` echoing the requested source language, and
makes no network call. -/
theorem translateText_blank_shortcircuits (text sourceLang targetLang : String)
    (remote : RemoteTextOutcome) (h : isBlank text = true) :
    translateText text sourceLang targetLang remote =
      { result := { translatedText := "", detectedLanguageCode := sourceLang },
        networkCalled := false } := by
  simp [translateText, h]

/-- Witness for C8 at the whitespace-only text `"  "`. -/
theorem translateText_blank_shortcircuits_witness :
    translateText "  " "tr" "en" RemoteTextOutcome.failure =
      { result := { translatedText := "", detectedLanguageCode := "tr" },
        networkCalled := false } :=
  translateText_blank_shortcircuits "  " "tr" "en" RemoteTextOutcome.failure (by decide)

/-- Claim C4: `translateText` is a total function (the embedding of
"never throws"), and on every transport failure or response-parse failure
with non-blank input it returns the fixed error string
`"Çeviri hatası oluştu."` as the translated text and echoes the requested
source language as the detected language code. -/
theorem translateText_failure_result (text sourceLang targetLang : String)
    (remote : RemoteTextOutcome) (htext : isBlank text = false)
    (hfail : remote = RemoteTextOutcome.failure ∨
      remote = RemoteTextOutcome.response ParsedResponse.parseError) :
    translateText text sourceLang targetLang remote =
      { result := { translatedText := "Çeviri hatası oluştu.",
                    detectedLanguageCode := sourceLang },
        networkCalled := true } := by
  rcases hfail with h | h <;> subst h <;> simp [translateText, htext]

/-- Witness for C4 at a transport failure on the text `"merhaba"`. -/
theorem translateText_failure_result_witness :
    translateText "merhaba" "tr" "en" RemoteTextOutcome.failure =
      { result := { translatedText := "Çeviri hatası oluştu.",
                    detectedLanguageCode := "tr" },
        networkCalled := true } :=
  translateText_failure_result "merhaba" "tr" "en" RemoteTextOutcome.failure
    (by decide) (Or.inl rfl)

/-- Claim C5: `swapLanguages` is an atomic exchange — the post-swap
quadruple (sourceLang, targetLang, sourceText, targetText) equals the
pre-swap (targetLang, sourceLang, targetText, sourceText) — and the swap
itself leaves the scheduled-translation environment untouched: it issues
no translation dispatch. -/
theorem swapLanguages_atomic (s : ControllerState) :
    (swapLanguages s).app.sourceLang = s.app.targetLang ∧
    (swapLanguages s).app.targetLang = s.app.sourceLang ∧
    (swapLanguages s).app.sourceText = s.app.targetText ∧
    (swapLanguages s).app.targetText = s.app.sourceText ∧
    pendingDispatches (swapLanguages s) = pendingDispatches s ∧
    (swapLanguages s).live = s.live :=
  ⟨rfl, rfl, rfl, rfl, rfl, rfl⟩

/-- Claim C6: `speakText` is a total boolean-returning function (the
embedding of "never throws past its own boundary"); it returns `false`
with no network call on blank text, returns `false` on transport failure
and when no response part carries inline audio data, and returns `true`
only when a decoded payload was played to completion. -/
theorem speakText_contract (text langCode : String) (remote : RemoteSpeechOutcome) :
    (isBlank text = true →
      speakText text langCode remote =
        { result := false, networkCalled := false, played := none }) ∧
    (remote = RemoteSpeechOutcome.failure →
      (speakText text langCode remote).result = false ∧
      (speakText text langCode remote).played = none) ∧
    (∀ parts?, remote = RemoteSpeechOutcome.response parts? →
      (∀ p ∈ parts?.getD [], p.inlineData = none) →
      (speakText text langCode remote).result = false) ∧
    ((speakText text langCode remote).result = true →
      (speakText text langCode remote).played.isSome) := by
  refine ⟨fun h => by simp [speakText, h], ?_, ?_, ?_⟩
  · rintro rfl
    by_cases h : isBlank text = true <;> simp [speakText, h]
  · rintro parts? rfl hnone
    have hfind : (parts?.getD []).find? (fun p => p.inlineData.isSome) = none := by
      rw [List.find?_eq_none]
      intro p hp
      simp [hnone p hp]
    by_cases h : isBlank text = true <;> simp [speakText, h, hfind]
  · intro h
    by_cases hb : isBlank text = true
    · simp [speakText, hb] at h
    · cases remote with
      | failure => simp [speakText, hb] at h
      | response parts? =>
          rcases hfind : (parts?.getD []).find? (fun p => p.inlineData.isSome)
            with _ | part
          · simp [speakText, hb, hfind] at h
          · rcases hinl : part.inlineData with _ | inline
            · simp [speakText, hb, hfind, hinl] at h
            · rcases hdat : inline.data with _ | b64
              · simp [speakText, hb, hfind, hinl, hdat] at h
              · simp [speakText, hb, hfind, hinl, hdat]

/-- One speech event preserves the exclusivity invariant. -/
lemma speakStep_inv (s : SpeakState) (e : SpeakEvent) (hinv : SpeakInv s) :
    SpeakInv (speakStep s e) := by
  obtain ⟨hle, hiff⟩ := hinv
  cases e with
  | req text =>
      unfold speakStep handleSpeakReq
      by_cases hg : (isBlank text || s.isSpeaking) = true
      · simpa [hg] using ⟨hle, hiff⟩
      · have hsp : s.isSpeaking = false := by
          cases hb : s.isSpeaking
          · rfl
          · exact absurd (by simp [hb]) hg
        have hfl : s.inFlightSpeech = 0 := by
          rcases Nat.lt_or_ge s.inFlightSpeech 1 with h1 | h1
          · omega
          · exact absurd (hiff.mpr (by omega)) (by simp [hsp])
        simp [hg, SpeakInv, hfl]
  | done =>
      unfold speakStep handleSpeakDone
      by_cases h0 : s.inFlightSpeech = 0
      · simpa [h0] using ⟨hle, hiff⟩
      · have h1 : s.inFlightSpeech = 1 := by omega
        simp [h0, SpeakInv, h1]

/-- A run of speech events preserves the exclusivity invariant. -/
lemma speakRun_inv (evs : List SpeakEvent) (s : SpeakState) (hinv : SpeakInv s) :
    SpeakInv (speakRun s evs) := by
  induction evs generalizing s with
  | nil => exact hinv
  | cons e es ih => exact ih (speakStep s e) (speakStep_inv s e hinv)

/-- Claim C7: a speak request while a speech operation is in flight is a
silent no-op — the whole speech state, in particular the speaking flag and
the playback-start count, is unchanged — and in every state reachable by
speech events from the initial state at most one speech operation is in
flight. -/
theorem handleSpeak_exclusive :
    (∀ (s : SpeakState) (text : String), s.isSpeaking = true →
      handleSpeakReq s text = s) ∧
    (∀ (s : SpeakState) (evs : List SpeakEvent), SpeakInv s →
      SpeakInv (speakRun s evs)) ∧
    (∀ evs : List SpeakEvent,
      (speakRun initialSpeak evs).inFlightSpeech ≤ 1) := by
  refine ⟨fun s text h => by simp [handleSpeakReq, h], ?_, ?_⟩
  · exact fun s evs hinv => speakRun_inv evs s hinv
  · exact fun evs => (speakRun_inv evs initialSpeak (by decide)).1

/-- When every live timer is the one the ref holds, clearing leaves no
live timer. -/
lemma clearScheduled_eq_nil (timerRef : Option Nat)
    (live : List ScheduledTranslate) (h : ∀ e ∈ live, timerRef = some e.id) :
    clearScheduled timerRef live = [] := by
  cases htr : timerRef with
  | none =>
      unfold clearScheduled
      refine List.eq_nil_iff_forall_not_mem.mpr fun e he => ?_
      have h2 := h e he
      rw [htr] at h2
      exact Option.noConfusion h2
  | some id =>
      unfold clearScheduled
      refine List.filter_eq_nil_iff.mpr fun e he => ?_
      have h2 : some id = some e.id := htr ▸ h e he
      simp [Option.some.inj h2]

/-- One keystroke under the debounce invariant: the previously scheduled
translation (if any) is cancelled before it can fire, and afterwards
exactly the final text is scheduled — or nothing, when the new text is
empty. The language selections are untouched. -/
lemma keystroke_spec (s : ControllerState) (t : String) (hinv : DebounceInv s) :
    DebounceInv (keystroke s t) ∧
    (keystroke s t).live =
      (if t ≠ "" then [⟨s.nextId, t, s.app.sourceLang, s.app.targetLang⟩] else []) ∧
    (keystroke s t).app.sourceLang = s.app.sourceLang ∧
    (keystroke s t).app.targetLang = s.app.targetLang := by
  have hclear : clearScheduled s.timerRef s.live = [] :=
    clearScheduled_eq_nil s.timerRef s.live hinv.2
  unfold keystroke debounceEffect
  dsimp only
  by_cases ht : t ≠ ""
  · rw [if_pos ht, hclear]
    exact ⟨by simp [DebounceInv], by simp [ht], rfl, rfl⟩
  · rw [if_neg ht, hclear]
    exact ⟨by simp [DebounceInv], by simp [ht], rfl, rfl⟩

/-- Processing a keystroke burst, stated on the last keystroke. -/
lemma processKeystrokes_last (ks : List String) (last : String)
    (s : ControllerState) (hinv : DebounceInv s) (hlast : ks.getLast? = some last) :
    DebounceInv (processKeystrokes s ks) ∧
    pendingDispatches (processKeystrokes s ks) =
      (if last ≠ "" then [(last, s.app.sourceLang, s.app.targetLang)] else []) := by
  induction ks generalizing s with
  | nil => simp at hlast
  | cons t ts ih =>
      cases ts with
      | nil =>
          have ht : t = last := by simpa using hlast
          subst ht
          obtain ⟨hinv', hlive, _, _⟩ := keystroke_spec s t hinv
          refine ⟨hinv', ?_⟩
          show pendingDispatches (keystroke s t) = _
          by_cases h : t ≠ "" <;> simp [pendingDispatches, hlive, h]
      | cons t' ts' =>
          obtain ⟨hinv', _, hsl, htl⟩ := keystroke_spec s t hinv
          have hlast' : (t' :: ts').getLast? = some last := by
            simpa [List.getLast?_cons_cons] using hlast
          have := ih (keystroke s t) hinv' hlast'
          rwa [hsl, htl] at this

/-- Claim C2 (amended): within one debounce window each new keystroke
cancels the previous schedule before it fires (at most one pending
scheduled translation ever exists), and when the window closes the burst
produces exactly one dispatch carrying the final text value — unless the
final text is empty, in which case it produces no dispatch at all. -/
theorem debounce_single_dispatch (s : ControllerState) (ks : List String)
    (last : String) (hinv : DebounceInv s) (hlast : ks.getLast? = some last) :
    DebounceInv (processKeystrokes s ks) ∧
    (processKeystrokes s ks).live.length ≤ 1 ∧
    pendingDispatches (processKeystrokes s ks) =
      (if last ≠ "" then [(last, s.app.sourceLang, s.app.targetLang)] else []) := by
  obtain ⟨hinv', hpend⟩ := processKeystrokes_last ks last s hinv hlast
  exact ⟨hinv', hinv'.1, hpend⟩

/-- Witness for C2 (amended): two keystrokes `"m"`, `"me"` inside the
window leave exactly one scheduled dispatch, carrying the final text. -/
theorem debounce_single_dispatch_witness :
    pendingDispatches (processKeystrokes initialController ["m", "me"]) =
      [("me", "tr", "en")] := by
  have h := debounce_single_dispatch initialController ["m", "me"] "me"
    (by decide) (by decide)
  rw [h.2.2]
  decide

/-- Counterexample for C2 as frozen: the keystroke burst `"a"` then `""`
(the user deletes everything inside the window) is a non-empty keystroke
sequence that produces zero dispatches, not exactly one. -/
theorem debounce_empty_final_counterexample :
    pendingDispatches (processKeystrokes initialController ["a", ""]) = [] ∧
    (pendingDispatches (processKeystrokes initialController ["a", ""])).length ≠ 1 := by
  decide

/-- Every code in the static language catalog is a non-empty string, so a
detected code that matches a catalog entry always passes the JavaScript
truthiness guard on `result.detectedLanguageCode`. -/
lemma languages_code_ne_empty : ∀ l ∈ languages, l.code ≠ "" := by decide

/-- Claim C3 (counterexample to the statement over the currently selected
source language): completion of a dispatch captured with source language
`"tr"`, running while the user has since selected `"en"`, with detected
code `"tr"` — a catalog entry differing from the currently selected
`"en"` — leaves the selection at `"en"` instead of updating it to `"tr"`,
because the code compares the detected code against the captured `sLang`,
not the current selection. -/
theorem completeTranslate_stale_capture_counterexample :
    ("tr" : String) ≠
      ({ initialAppState with sourceLang := "en" } : AppState).sourceLang ∧
    (∃ l ∈ languages, l.code = "tr") ∧
    (completeTranslate { initialAppState with sourceLang := "en" } "tr"
      { translatedText := "merhaba", detectedLanguageCode := "tr" }).sourceLang ≠ "tr" ∧
    (completeTranslate { initialAppState with sourceLang := "en" } "tr"
      { translatedText := "merhaba", detectedLanguageCode := "tr" }).sourceLang = "en" := by
  decide

/-- Claim C3 (amended): on every translation completion with `sLang` the
source language captured at dispatch time: if the detected code differs
from the *captured* source language and matches a catalog entry, the
selected source language becomes the detected code; if the detected code
matches no catalog entry, the selection is unchanged; in all cases the
translated text is written to the target state and the loading flag is
cleared. -/
theorem completeTranslate_contract (st : AppState) (sLang : String)
    (r : TranslationResult) :
    ((r.detectedLanguageCode ≠ sLang ∧
        ∃ l ∈ languages, l.code = r.detectedLanguageCode) →
      (completeTranslate st sLang r).sourceLang = r.detectedLanguageCode) ∧
    ((∀ l ∈ languages, l.code ≠ r.detectedLanguageCode) →
      (completeTranslate st sLang r).sourceLang = st.sourceLang) ∧
    (completeTranslate st sLang r).targetText = r.translatedText ∧
    (completeTranslate st sLang r).isLoading = false := by
  refine ⟨?_, ?_, rfl, rfl⟩
  · rintro ⟨hne, l, hl, hcode⟩
    have hne' : r.detectedLanguageCode ≠ "" := hcode ▸ languages_code_ne_empty l hl
    have hfind : (languages.find? (fun l => l.code == r.detectedLanguageCode)).isSome := by
      rw [List.find?_isSome]
      exact ⟨l, hl, by simp [hcode]⟩
    obtain ⟨found, hfound⟩ := Option.isSome_iff_exists.mp hfind
    have hfcode : found.code = r.detectedLanguageCode := by
      simpa using List.find?_some hfound
    unfold completeTranslate
    rw [if_pos ⟨hne', hne⟩, hfound]
    exact hfcode
  · intro hall
    have hfind : languages.find? (fun l => l.code == r.detectedLanguageCode) = none := by
      rw [List.find?_eq_none]
      intro l hl
      simp [hall l hl]
    unfold completeTranslate
    by_cases hc : r.detectedLanguageCode ≠ "" ∧ r.detectedLanguageCode ≠ sLang
    · rw [if_pos hc, hfind]
    · rw [if_neg hc]

/-- Witness for C3 (amended): completing a dispatch captured with source
language `"tr"` on the initial state with detected code `"en"` switches
the source language to `"en"`, writes the translated text and clears
loading. -/
theorem completeTranslate_contract_witness :
    (completeTranslate initialAppState "tr"
      { translatedText := "hello", detectedLanguageCode := "en" }).sourceLang = "en" ∧
    (completeTranslate initialAppState "tr"
      { translatedText := "hello", detectedLanguageCode := "en" }).targetText = "hello" ∧
    (completeTranslate initialAppState "tr"
      { translatedText := "hello", detectedLanguageCode := "en" }).isLoading = false := by
  have h := completeTranslate_contract initialAppState "tr"
    { translatedText := "hello", detectedLanguageCode := "en" }
  exact ⟨h.1 ⟨by decide, by decide⟩, h.2.2.1, h.2.2.2⟩

/-- The C1 scenario, evaluated on the code: in one session, translation A
is dispatched, then translation B is dispatched, then the response of B
resolves, then the response of A resolves. Both completions run with the
captured source language `"tr"`. -/
def staleScenarioFinal : AppState :=
  let s0 := { initialAppState with sourceText := "merhaba" }
  let s1 := (handleTranslateStart s0 "merhaba").1
  let s2 := (handleTranslateStart s1 "merhaba dostum").1
  let s3 := completeTranslate s2 "tr"
    { translatedText := "B-translation", detectedLanguageCode := "tr" }
  completeTranslate s3 "tr"
    { translatedText := "A-translation", detectedLanguageCode := "tr" }

/-- Claim C1 (evaluation at the failing input): the code carries no
sequence number or cancellation token, so the stale completion of A, the
last to resolve, overwrites the committed target text of B — the final
target text is the translated text of A, not of B. -/
theorem staleResponse_overwrites_newer :
    staleScenarioFinal.targetText = "A-translation" ∧
    staleScenarioFinal.targetText ≠ "B-translation" := by
  decide

/-- Every decoded 16-bit sample lies in the signed 16-bit range. -/
lemma bytesToInt16_bounds (lo hi : Fin 256) :
    -32768 ≤ bytesToInt16 lo hi ∧ bytesToInt16 lo hi ≤ 32767 := by
  have hlo : lo.val ≤ 255 := Nat.le_of_lt_succ lo.isLt
  have hhi : hi.val ≤ 255 := Nat.le_of_lt_succ hi.isLt
  unfold bytesToInt16
  by_cases h : lo.val + 256 * hi.val < 32768 <;> simp only [h, if_true, if_false] <;>
    constructor <;> omega

/-- Every sample of a PCM byte buffer is in the signed 16-bit range. -/
lemma pcmBytesToSamples_bounds :
    ∀ (bytes : List (Fin 256)) (s : Int), s ∈ pcmBytesToSamples bytes →
      -32768 ≤ s ∧ s ≤ 32767
  | [], _, h => by simp [pcmBytesToSamples] at h
  | [_], _, h => by simp [pcmBytesToSamples] at h
  | lo :: hi :: rest, s, h => by
      rw [pcmBytesToSamples] at h
      rcases List.mem_cons.mp h with rfl | h2
      · exact bytesToInt16_bounds lo hi
      · exact pcmBytesToSamples_bounds rest s h2

/-- Claim C10: every floating-point sample produced by the playback
conversion lies in the half-open interval [-1, 1): it is at least -1, at
most 32767/32768, hence strictly below 1; and the lower bound -1 is
attained, at the little-endian byte pair (0x00, 0x80), the input sample
-32768. -/
theorem pcm_float_range :
    (∀ (bytes : List (Fin 256)), ∀ x ∈ pcmBytesToFloats bytes,
      -1 ≤ x ∧ x ≤ 32767 / 32768 ∧ x < 1) ∧
    pcmBytesToFloats [⟨0, by norm_num⟩, ⟨128, by norm_num⟩] = [-1] := by
  constructor
  · intro bytes x hx
    obtain ⟨s, hs, rfl⟩ := List.mem_map.mp hx
    obtain ⟨hlow, hhigh⟩ := pcmBytesToSamples_bounds bytes s hs
    have hlow' : (-32768 : ℚ) ≤ (s : ℚ) := by exact_mod_cast hlow
    have hhigh' : (s : ℚ) ≤ 32767 := by exact_mod_cast hhigh
    have h32 : (0 : ℚ) < 32768 := by norm_num
    unfold pcmSampleToFloat
    refine ⟨?_, ?_, ?_⟩
    · calc (-1 : ℚ) = -32768 / 32768 := by norm_num
        _ ≤ (s : ℚ) / 32768 := (div_le_div_right h32).mpr hlow'
    · exact (div_le_div_right h32).mpr hhigh'
    · calc (s : ℚ) / 32768 ≤ 32767 / 32768 := (div_le_div_right h32).mpr hhigh'
        _ < 1 := by norm_num
  · simp only [pcmBytesToFloats, pcmBytesToSamples, pcmSampleToFloat, bytesToInt16,
      List.map]
    norm_num

/-- Claim C9 (counterexample to the unrestricted statement): the float
sample 2 is clamped by the 16-bit encoding, and decoding gives
32767/32768, which is not within 1/32768 of 2. -/
theorem pcm_roundtrip_counterexample :
    ¬ |pcmSampleToFloat (encodePcm16 2) - 2| ≤ 1 / 32768 := by
  have henc : encodePcm16 2 = 32767 := by
    have hfl : ⌊(2 : ℚ) * 32768 + 1 / 2⌋ = 65536 := by
      rw [Int.floor_eq_iff]
      constructor <;> norm_num
    unfold encodePcm16
    rw [hfl]
    decide
  intro h
  rw [henc] at h
  have hval : pcmSampleToFloat 32767 = 32767 / 32768 := by
    unfold pcmSampleToFloat
    norm_num
  rw [hval, abs_le] at h
  linarith [h.1]

/-- Claim C9 (amended): for every float sample in the representable range
[-1, 1], encoding to 16-bit PCM (round to nearest, clamp) and decoding
back through the playback conversion (division by 32768) yields a value
within 1/32768 of the original. -/
theorem pcm_roundtrip_inrange (f : ℚ) (h1 : -1 ≤ f) (h2 : f ≤ 1) :
    |pcmSampleToFloat (encodePcm16 f) - f| ≤ 1 / 32768 := by
  set n : Int := ⌊f * 32768 + 1 / 2⌋ with hn
  have hA : (n : ℚ) ≤ f * 32768 + 1 / 2 := Int.floor_le _
  have hB : f * 32768 + 1 / 2 < (n : ℚ) + 1 := Int.lt_floor_add_one _
  have hnlow : -32768 ≤ n := by
    have hq : (-32769 : ℚ) < (n : ℚ) := by linarith
    have : (-32769 : Int) < n := by exact_mod_cast hq
    omega
  have hnhigh : n ≤ 32768 := by
    have hq : (n : ℚ) < 32769 := by linarith
    have : n < (32769 : Int) := by exact_mod_cast hq
    omega
  have h32 : (0 : ℚ) < 32768 := by norm_num
  rcases le_or_lt n 32767 with hc | hc
  · have henc : encodePcm16 f = n := by
      unfold encodePcm16
      rw [← hn, min_eq_right hc, max_eq_right hnlow]
    rw [henc]
    unfold pcmSampleToFloat
    rw [show (n : ℚ) / 32768 - f = ((n : ℚ) - f * 32768) / 32768 by ring,
      abs_div, abs_of_pos h32]
    refine (div_le_div_right h32).mpr ?_
    rw [abs_le]
    constructor <;> linarith
  · have hn32768 : n = 32768 := by omega
    have henc : encodePcm16 f = 32767 := by
      unfold encodePcm16
      rw [← hn, hn32768]
      decide
    rw [henc]
    have hA' : (32768 : ℚ) ≤ f * 32768 + 1 / 2 := by
      rw [hn32768] at hA
      exact_mod_cast hA
    unfold pcmSampleToFloat
    rw [abs_le]
    constructor <;> [linarith; linarith]

/-- Witness for C9 (amended) at the in-range sample 1/2, which round-trips
exactly. -/
theorem pcm_roundtrip_inrange_witness :
    |pcmSampleToFloat (encodePcm16 (1 / 2)) - 1 / 2| ≤ 1 / 32768 :=
  pcm_roundtrip_inrange (1 / 2) (by norm_num) (by norm_num)

end Translate
